import Mathlib

/-!
Shallow embedding of the library-inventory and requirement-resolution core of
`lutris/util/linux.py` (classes `LinuxSystem` and `SharedLibrary`).

External effects are modelled as data frozen in a `LinuxSystem` record:
the raw `platform.machine()` string, the (tab-stripped) output lines of
`ldconfig -p`, the AMD-GPU detection flag, and the Mesa version string that
`LINUX_SYSTEM.glxinfo.GLX_MESA_query_renderer.version` would yield (`none`
models any `AttributeError` along that attribute chain).  The filesystem is a
record of the `os.path.exists` and `os.path.realpath` oracles.  A raised
`KeyError` is modelled by an `Option` result being `none`.
-/

namespace Lutris

/-- Characters removed by Python's default `str.strip()` (the whitespace that
can realistically occur in ldconfig flag tokens). -/
def isPySpace (c : Char) : Bool := c = ' ' || c = '\t' || c = '\n' || c = '\r'

/-- Python `s.strip()` on a character list. -/
def stripChars (cs : List Char) : List Char :=
  ((cs.dropWhile isPySpace).reverse.dropWhile isPySpace).reverse

/-- Python `s.split(sep)` for a one-character separator: split at every
occurrence, keeping empty pieces (`"".split(",") == [""]`). -/
def splitAll (sep : Char) : List Char → List (List Char)
  | [] => [[]]
  | c :: rest =>
    match splitAll sep rest with
    | [] => [[]]
    | h :: t => if c = sep then [] :: h :: t else (c :: h) :: t

/-- `leadsWith sep cs` is true iff `sep` occurs at the start of `cs`. -/
def leadsWith : List Char → List Char → Bool
  | [], _ => true
  | _ :: _, [] => false
  | a :: as, b :: bs => a = b && leadsWith as bs

/-- `containsSeq sep cs` is true iff `sep` occurs contiguously in `cs`
(Python's `sep in cs`). -/
def containsSeq (sep : List Char) : List Char → Bool
  | [] => sep.isEmpty
  | c :: rest => leadsWith sep (c :: rest) || containsSeq sep rest

/-- All decompositions `cs = a ++ sep ++ b`, ordered by increasing length of
`a`; the backtracking regex engine's greedy `(.*)` group takes the last one. -/
def splitsOn (sep : List Char) : List Char → List (List Char × List Char)
  | [] => if leadsWith sep [] then [([], [])] else []
  | c :: rest =>
    (if leadsWith sep (c :: rest) then [(([] : List Char), (c :: rest).drop sep.length)] else []) ++
    (splitsOn sep rest).map (fun p => (c :: p.1, p.2))

/-- `SharedLibrary`: representation of a Linux shared library.  `flags` is the
result of `__init__`'s `[flag.strip() for flag in flags.split(",")]`. -/
structure SharedLibrary where
  name : String
  flags : List String
  path : String
deriving DecidableEq

/-- `SharedLibrary.__init__(name, flags, path)`: comma-split and strip the raw
flags string. -/
def SharedLibrary.ofParts (name flagsStr path : String) : SharedLibrary :=
  ⟨name, (splitAll ',' flagsStr.toList).map (fun f => String.mk (stripChars f)), path⟩

/-- `SharedLibrary.new_from_ldconfig`: match the line against the anchored
regex `^(.*) \((.*)\) => (.*)$` (greedy groups: group 1 takes the last
`" ("` occurrence whose remainder still contains `") => "`, then group 2
takes up to the last `") => "` of that remainder), or fail with `ValueError`
(modelled by `none`). -/
def newFromLdconfig (line : String) : Option SharedLibrary :=
  match ((splitsOn " (".toList line.toList).filter
      (fun q => containsSeq ") => ".toList q.2)).getLast? with
  | none => none
  | some (a, r) =>
    match (splitsOn ") => ".toList r).getLast? with
    | none => none  -- unreachable: the filter above guarantees a decomposition
    | some (b, c) =>
      some (SharedLibrary.ofParts (String.mk a) (String.mk b) (String.mk c))

/-- `SharedLibrary.arch`: first tag of `["x86-64", "x32"]` found among the
flags, hyphens replaced by underscores; `default_arch = "i386"` otherwise. -/
def SharedLibrary.arch (l : SharedLibrary) : String :=
  match (["x86-64", "x32"].find? (fun a => l.flags.contains a)) with
  | some a => String.mk (a.toList.map (fun ch => if ch = '-' then '_' else ch))
  | none => "i386"

/-- `SYSTEM_COMPONENTS["LIBRARIES"]` as a lookup: `none` models the `KeyError`
a missing key raises. -/
def SYSTEM_LIBRARIES : String → Option (List String) := fun req =>
  if req = "OPENGL" then some ["libGL.so.1"]
  else if req = "VULKAN" then some ["libvulkan.so.1"]
  else if req = "WINE" then some ["libsqlite3.so.0"]
  else if req = "RADEON" then some ["libvulkan_radeon.so"]
  else if req = "GAMEMODE" then some ["libgamemodeauto.so"]
  else if req = "GNUTLS" then some ["libgnutls.so.30"]
  else none

def requiredComponents : List String := ["OPENGL", "VULKAN", "GNUTLS"]

def optionalComponents : List String := ["WINE", "GAMEMODE"]

/-- `LinuxSystem.multiarch_lib_folders`. -/
def multiarchLibFolders : List (String × String) :=
  [("/lib", "/lib64"),
   ("/lib32", "/lib64"),
   ("/usr/lib", "/usr/lib64"),
   ("/usr/lib32", "/usr/lib64"),
   ("/lib/i386-linux-gnu", "/lib/x86_64-linux-gnu"),
   ("/usr/lib/i386-linux-gnu", "/usr/lib/x86_64-linux-gnu"),
   ("/usr/lib", "/opt/32/lib")]

/-- `LinuxSystem.get_arch`: normalize the machine string; unsupported strings
fall through (a warning is logged and the function returns `None`). -/
def getArch (machine : String) : Option String :=
  if machine = "x86_64" then some "x86_64"
  else if machine = "i386" ∨ machine = "i686" then some "i386"
  else if containsSeq "armv7".toList machine.toList then some "armv7"
  else none

/-- Frozen snapshot of the external inputs a `LinuxSystem` instance reads. -/
structure LinuxSystem where
  machine : String
  ldconfigLines : List String
  isAMD : Bool
  mesaVersion : Option String
deriving DecidableEq

/-- `self.arch = self.get_arch()`. -/
def LinuxSystem.arch (s : LinuxSystem) : Option String := getArch s.machine

/-- `LinuxSystem.runtime_architectures`. -/
def runtimeArchitectures (s : LinuxSystem) : List String :=
  if s.arch = some "x86_64" then ["i386", "x86_64"] else ["i386"]

/-- `LinuxSystem.get_requirements`. -/
def getRequirements (s : LinuxSystem) (includeOptional : Bool) : List String :=
  requiredComponents ++
    (if includeOptional then optionalComponents ++ (if s.isAMD then ["RADEON"] else []) else [])

/-- The `requirements` property (`get_requirements()` with its default). -/
def requirements (s : LinuxSystem) : List String := getRequirements s true

/-- The records of `get_shared_libraries`, in ldconfig-listing order: each line
parsed by `new_from_ldconfig` (failures logged and skipped), records whose
architecture is outside `runtime_architectures` discarded. -/
def parsedLibs (s : LinuxSystem) : List SharedLibrary :=
  (s.ldconfigLines.filterMap newFromLdconfig).filter
    (fun l => (runtimeArchitectures s).contains (SharedLibrary.arch l))

/-- `self.shared_libraries[name]`: the defaultdict groups records by name,
preserving listing order within a name. -/
def sharedLibsFor (s : LinuxSystem) (name : String) : List SharedLibrary :=
  (parsedLibs s).filter (fun l => l.name == name)

def dedupFOAux (seen : List String) : List String → List String
  | [] => []
  | x :: xs => if x ∈ seen then dedupFOAux seen xs else x :: dedupFOAux (x :: seen) xs

/-- Keys in first-occurrence order (Python dict/Counter insertion order). -/
def dedupFO (l : List String) : List String := dedupFOAux [] l

/-- The keys of `self.shared_libraries` (one per distinct parsed name). -/
def inventoryNames (s : LinuxSystem) : List String :=
  dedupFO ((parsedLibs s).map (fun l => l.name))

/-- `os.path.dirname` (posixpath): everything up to the last `/`, with
trailing slashes stripped unless the head is all slashes. -/
def dirname (p : String) : String :=
  let cs := p.toList
  let afterSlash := (cs.reverse.takeWhile (fun c => c ≠ '/')).length
  let head := cs.take (cs.length - afterSlash)
  if head ≠ [] ∧ head.any (fun c => c ≠ '/') then
    String.mk ((head.reverse.dropWhile (fun c => c = '/')).reverse)
  else String.mk head

/-- The stream `Counter` iterates over in `get_lib_folders`: every record's
`dirname`, walking the defaultdict values in key insertion order. -/
def inventoryDirs (s : LinuxSystem) : List String :=
  (inventoryNames s).flatMap (fun n => (sharedLibsFor s n).map (fun l => dirname l.path))

/-- Stable insertion preserving descending counts (Python's stable
`sorted(..., reverse=True)` used by `Counter.most_common`). -/
def insertByCount (cnt : String → Nat) (x : String) : List String → List String
  | [] => [x]
  | y :: ys => if cnt y ≤ cnt x then x :: y :: ys else y :: insertByCount cnt x ys

def sortByCountDesc (cnt : String → Nat) : List String → List String
  | [] => []
  | x :: xs => insertByCount cnt x (sortByCountDesc cnt xs)

/-- `Counter(xs).most_common()`: distinct keys sorted by multiplicity,
descending, ties in first-occurrence order. -/
def mostCommon (xs : List String) : List String :=
  sortByCountDesc (fun k => xs.count k) (dedupFO xs)

/-- `LinuxSystem.get_lib_folders`. -/
def getLibFolders (s : LinuxSystem) : List String := mostCommon (inventoryDirs s)

/-- The filesystem oracles `iter_lib_folders` consults. -/
structure FS where
  pathExists : String → Bool
  realpath : String → String

/-- One iteration of the `multiarch_lib_folders` loop in `iter_lib_folders`.
`exported` is the seen-set; the source populates it only while yielding the
ranked folders of `get_lib_folders`, never during this loop. -/
def pairEmit (s : LinuxSystem) (fs : FS) (exported : List String) (p : String × String) :
    List String :=
  if s.arch ≠ some "x86_64" then
    -- On non amd64 setups, only the first element is relevant
    if fs.pathExists p.1 then (if p.1 ∈ exported then [] else [p.1]) else []
  else if fs.realpath p.1 = fs.realpath p.2 then []
  else if fs.pathExists p.1 && fs.pathExists p.2 then
    (if p.1 ∈ exported then [] else [p.1]) ++ (if p.2 ∈ exported then [] else [p.2])
  else []

/-- `LinuxSystem.iter_lib_folders`, as the finite list of yielded values. -/
def iterLibFolders (s : LinuxSystem) (fs : FS) : List String :=
  getLibFolders s ++ multiarchLibFolders.flatMap (pairEmit s fs (getLibFolders s))

/-- `self._cache["LIBRARIES"][arch][req]` after `populate_libraries`: for each
requirement and each of its table libraries, every matching inventory record
appends the library name under the record's architecture.  Requirements
outside the requirement set hit the defaultdict's `[]`.  (Every name in the
requirement set is a table key, so the table lookup cannot fail here.) -/
def libCache (s : LinuxSystem) (arch req : String) : List String :=
  if req ∈ requirements s then
    match SYSTEM_LIBRARIES req with
    | none => []
    | some libs =>
      libs.flatMap (fun lib =>
        (sharedLibsFor s lib).filterMap
          (fun sl => if SharedLibrary.arch sl = arch then some lib else none))
  else []

/-- `LinuxSystem.get_missing_requirement_libs`: per runtime architecture, the
set difference `set(table[req]) - set(cache[arch][req])`, materialized as a
list (the table's value lists are singletons, so Python's set iteration order
is immaterial and first-occurrence order is exact).  `none` models the
`KeyError` raised when `req` is not a table key. -/
def getMissingRequirementLibs (s : LinuxSystem) (req : String) :
    Option (List (List String)) :=
  match SYSTEM_LIBRARIES req with
  | none => none
  | some libs =>
    some ((runtimeArchitectures s).map (fun arch =>
      (dedupFO libs).filter (fun l => decide (l ∉ libCache s arch req))))

/-- `LinuxSystem.is_feature_supported`: `"ACO"` compares the Mesa version
string lexically against `"19.3"` (an inaccessible version yields
`AttributeError`, caught and turned into `False`); every other feature tests
whether the missing-list at index 0 is empty.  `none` models the `KeyError`
escaping from `get_missing_requirement_libs`. -/
def isFeatureSupported (s : LinuxSystem) (feature : String) : Option Bool :=
  if feature = "ACO" then
    some (match s.mesaVersion with
      | none => false
      | some v => decide ("19.3" ≤ v))
  else
    (getMissingRequirementLibs s feature).map (fun ls => decide (ls.headD [] = []))

end Lutris

namespace Lutris

/-! ## Example snapshots used by concrete evaluations -/

/-- An `x86_64` host whose linker cache holds a single, `x86-64`-tagged
record for the Vulkan loader. -/
def exVulkanX64 : LinuxSystem :=
  ⟨"x86_64", ["libvulkan.so.1 (libc6,x86-64) => /usr/lib/libvulkan.so.1"], false, none⟩

/-- An `x86_64` host with an empty linker-cache listing and no Mesa version. -/
def exEmptyX64 : LinuxSystem := ⟨"x86_64", [], false, none⟩

/-- The synthetic three-line listing (two good records, one malformed line). -/
def exSynthetic : LinuxSystem :=
  ⟨"x86_64",
   ["libGL.so.1 (libc6,x86-64) => /usr/lib/libGL.so.1",
    "libvulkan.so.1 (libc6,x86-64) => /usr/lib/libvulkan.so.1",
    "this line is malformed"],
   false, none⟩

/-- A filesystem where exactly `/lib`, `/lib64` and `/lib32` exist and
`realpath` is the identity (no symlinked folders). -/
def exFSThree : FS := ⟨fun p => p ∈ ["/lib", "/lib64", "/lib32"], fun p => p⟩

/-- A filesystem where only `/lib` exists. -/
def exFSOne : FS := ⟨fun p => p ∈ ["/lib"], fun p => p⟩

/-- A filesystem where exactly `/lib` and `/lib64` exist. -/
def exFSPair : FS := ⟨fun p => p ∈ ["/lib", "/lib64"], fun p => p⟩

end Lutris

namespace Lutris

/-! ## Supporting lemmas -/

theorem mem_dedupFOAux (x : String) (l : List String) :
    ∀ seen, x ∈ dedupFOAux seen l ↔ (x ∈ l ∧ x ∉ seen) := by
  induction l with
  | nil => intro seen; simp [dedupFOAux]
  | cons y ys ih =>
    intro seen
    by_cases h : y ∈ seen
    · simp only [dedupFOAux, if_pos h, ih, List.mem_cons]
      constructor
      · rintro ⟨hy, hs⟩; exact ⟨Or.inr hy, hs⟩
      · rintro ⟨hy | hy, hs⟩
        · exact absurd (hy ▸ h) hs
        · exact ⟨hy, hs⟩
    · simp only [dedupFOAux, if_neg h, List.mem_cons, ih, not_or]
      constructor
      · rintro (rfl | ⟨hy, hxy, hs⟩)
        · exact ⟨Or.inl rfl, h⟩
        · exact ⟨Or.inr hy, hs⟩
      · rintro ⟨rfl | hy, hs⟩
        · exact Or.inl rfl
        · by_cases hxy : x = y
          · exact Or.inl hxy
          · exact Or.inr ⟨hy, hxy, hs⟩

theorem mem_dedupFO (x : String) (l : List String) : x ∈ dedupFO l ↔ x ∈ l := by
  simp [dedupFO, mem_dedupFOAux]

theorem mem_libCache (s : LinuxSystem) (arch req l : String) (libs : List String)
    (hreq : req ∈ requirements s) (htab : SYSTEM_LIBRARIES req = some libs) :
    l ∈ libCache s arch req ↔
      (l ∈ libs ∧ ∃ r, r ∈ parsedLibs s ∧ r.name = l ∧ SharedLibrary.arch r = arch) := by
  simp only [libCache, if_pos hreq, htab, List.mem_flatMap, List.mem_filterMap,
    sharedLibsFor, List.mem_filter, beq_iff_eq]
  constructor
  · rintro ⟨lib, hlib, sl, ⟨hsl, hname⟩, hif⟩
    by_cases harch : SharedLibrary.arch sl = arch
    · rw [if_pos harch] at hif
      obtain rfl := Option.some.inj hif
      exact ⟨hlib, sl, hsl, hname, harch⟩
    · rw [if_neg harch] at hif
      exact absurd hif (by simp)
  · rintro ⟨hlib, r, hr, hname, harch⟩
    exact ⟨l, hlib, r, ⟨hr, hname⟩, by rw [if_pos harch]⟩

end Lutris

namespace Lutris

/-! ## Claim theorems -/

/-- C1, counterexample: on an `x86_64` host whose inventory holds exactly one
`x86-64`-tagged record for `libvulkan.so.1` (and no `i386` one), the missing
list for the second runtime architecture (`x86_64`) is empty, yet
`is_feature_supported("VULKAN")` returns `False` — the gate is index 0 of the
runtime-architecture list, which is `i386`, not the primary architecture. -/
theorem c1_x64_only_vulkan_not_supported :
    (parsedLibs exVulkanX64).map SharedLibrary.arch = ["x86_64"] ∧
      getMissingRequirementLibs exVulkanX64 "VULKAN" = some [["libvulkan.so.1"], []] ∧
      isFeatureSupported exVulkanX64 "VULKAN" = some false := by
  decide

/-- C1, amended: for every non-ACO requirement, `is_feature_supported` is true
iff the missing-library list for the first runtime architecture is empty; but
that first architecture is always `"i386"` (on an `x86_64` host the primary
architecture sits at index 1), so primary-only availability does not gate. -/
theorem c1_feature_gated_by_first_runtime_arch (s : LinuxSystem) (req : String)
    (ls : List (List String)) (hreq : req ≠ "ACO")
    (hmiss : getMissingRequirementLibs s req = some ls) :
    (isFeatureSupported s req = some true ↔ ls.headD [] = []) ∧
      (runtimeArchitectures s).headD "" = "i386" := by
  constructor
  · simp [isFeatureSupported, hreq, hmiss]
  · unfold runtimeArchitectures
    split <;> rfl

/-- C1, witness: the amended theorem applied to the `x86_64`-only Vulkan
snapshot; its first missing list is `["libvulkan.so.1"]`, hence unsupported. -/
theorem c1_feature_gated_witness :
    (isFeatureSupported exVulkanX64 "VULKAN" = some true ↔
      ([["libvulkan.so.1"], []] : List (List String)).headD [] = []) ∧
      (runtimeArchitectures exVulkanX64).headD "" = "i386" :=
  c1_feature_gated_by_first_runtime_arch exVulkanX64 "VULKAN" [["libvulkan.so.1"], []]
    (by decide) (by decide)

/-- C2: the seen-set of `iter_lib_folders` is never updated while walking the
multiarch pairs, so `/lib64` — the second element of both `("/lib", "/lib64")`
and `("/lib32", "/lib64")` — is yielded twice on a filesystem where `/lib`,
`/lib32` and `/lib64` all exist as distinct real directories. -/
theorem c2_lib64_yielded_twice :
    iterLibFolders exEmptyX64 exFSThree = ["/lib", "/lib64", "/lib32", "/lib64"] ∧
      ¬ (iterLibFolders exEmptyX64 exFSThree).Nodup := by
  decide

/-- C3, counterexample: on an `x86_64` host, the pair `("/lib", "/lib64")` has
distinct realpaths and exactly one existing side, yet `iter_lib_folders`
yields nothing — the source requires *both* sides to exist before emitting
either. -/
theorem c3_single_existing_side_not_emitted :
    ("/lib", "/lib64") ∈ multiarchLibFolders ∧
      exFSOne.pathExists "/lib" = true ∧ exFSOne.pathExists "/lib64" = false ∧
      exFSOne.realpath "/lib" ≠ exFSOne.realpath "/lib64" ∧
      iterLibFolders exEmptyX64 exFSOne = [] := by
  decide

/-- C3, amended: on an `x86_64` host, for a multiarch pair with distinct
realpaths, both sides appear in the output when *both* exist on disk (each
side is emitted in the pair walk unless it already appeared among the ranked
folders, in which case it is in the output anyway). -/
theorem c3_pair_emitted_when_both_sides_exist (s : LinuxSystem) (fs : FS) (a b : String)
    (harch : s.arch = some "x86_64") (hmem : (a, b) ∈ multiarchLibFolders)
    (hreal : fs.realpath a ≠ fs.realpath b)
    (ha : fs.pathExists a = true) (hb : fs.pathExists b = true) :
    a ∈ iterLibFolders s fs ∧ b ∈ iterLibFolders s fs := by
  have key : ∀ x : String, x ∈ pairEmit s fs (getLibFolders s) (a, b) →
      x ∈ iterLibFolders s fs := fun x hx =>
    List.mem_append_right _ (List.mem_flatMap.mpr ⟨(a, b), hmem, hx⟩)
  constructor
  · by_cases hseen : a ∈ getLibFolders s
    · exact List.mem_append_left _ hseen
    · refine key a ?_
      simp [pairEmit, harch, hreal, ha, hb, hseen]
  · by_cases hseen : b ∈ getLibFolders s
    · exact List.mem_append_left _ hseen
    · refine key b ?_
      simp [pairEmit, harch, hreal, ha, hb, hseen]

/-- C3, witness: the amended theorem on the filesystem where `/lib` and
`/lib64` both exist as distinct real directories. -/
theorem c3_pair_emitted_witness :
    "/lib" ∈ iterLibFolders exEmptyX64 exFSPair ∧
      "/lib64" ∈ iterLibFolders exEmptyX64 exFSPair :=
  c3_pair_emitted_when_both_sides_exist exEmptyX64 exFSPair "/lib" "/lib64"
    (by decide) (by decide) (by decide) (by decide) (by decide)

/-- C4, counterexample: `get_arch` on the unsupported machine string `"mips"`
returns `None` (falls through after the warning), not the string
`"unknown"`. -/
theorem c4_mips_resolves_to_none_not_unknown :
    getArch "mips" = none ∧ getArch "mips" ≠ some "unknown" := by
  decide

/-- C4, amended: every machine string that is not `x86_64`, not `i386`/`i686`
and does not contain `armv7` makes `get_arch` fall through non-fatally and
return `None` (no architecture value), rather than raising or returning
`"unknown"`. -/
theorem c4_unsupported_machine_resolves_to_none (m : String)
    (h1 : m ≠ "x86_64") (h2 : ¬(m = "i386" ∨ m = "i686"))
    (h3 : containsSeq "armv7".toList m.toList = false) :
    getArch m = none := by
  have h3' : containsSeq ['a', 'r', 'm', 'v', '7'] m.data = false := h3
  simp [getArch, h1, h2, h3']

/-- C4, witness: the amended theorem at the machine string `"mips"`. -/
theorem c4_unsupported_machine_witness : getArch "mips" = none :=
  c4_unsupported_machine_resolves_to_none "mips" (by decide) (by decide) (by decide)

/-- C6: on the synthetic three-line listing (two `x86-64`-tagged records plus
one malformed line) with runtime architectures `[i386, x86_64]`, the malformed
line is skipped, the inventory holds exactly the two good names, and
`get_missing_requirement_libs("VULKAN")` is `[["libvulkan.so.1"], []]`. -/
theorem c6_synthetic_listing_end_to_end :
    runtimeArchitectures exSynthetic = ["i386", "x86_64"] ∧
      newFromLdconfig "this line is malformed" = none ∧
      inventoryNames exSynthetic = ["libGL.so.1", "libvulkan.so.1"] ∧
      getMissingRequirementLibs exSynthetic "VULKAN" = some [["libvulkan.so.1"], []] := by
  decide

/-- C8: `is_feature_supported("ACO")` is true iff the Mesa version value is
present and lexically (string comparison) at least `"19.3"`; when the value is
absent the `AttributeError` is caught and the result is `False`, not an
error. -/
theorem c8_aco_lexical_mesa_check (s : LinuxSystem) :
    (isFeatureSupported s "ACO" = some true ↔
      ∃ v, s.mesaVersion = some v ∧ "19.3" ≤ v) ∧
      (s.mesaVersion = none → isFeatureSupported s "ACO" = some false) := by
  cases h : s.mesaVersion with
  | none => simp [isFeatureSupported, h]
  | some v => simp [isFeatureSupported, h]

/-- C8, witness: the `ACO` check on a snapshot with no Mesa version reports
`False` instead of erroring. -/
theorem c8_aco_witness : isFeatureSupported exEmptyX64 "ACO" = some false :=
  (c8_aco_lexical_mesa_check exEmptyX64).2 rfl

/-- C9: architecture classification of a parsed record is a total function of
its flags, with `"x86-64"` taking precedence: an `"x86-64"` tag gives
`x86_64`; otherwise an `"x32"` tag gives `x32`; otherwise `i386`. -/
theorem c9_arch_classification_total (name : String) (flags : List String) (path : String) :
    ("x86-64" ∈ flags → SharedLibrary.arch ⟨name, flags, path⟩ = "x86_64") ∧
      ("x86-64" ∉ flags → "x32" ∈ flags → SharedLibrary.arch ⟨name, flags, path⟩ = "x32") ∧
      ("x86-64" ∉ flags → "x32" ∉ flags → SharedLibrary.arch ⟨name, flags, path⟩ = "i386") := by
  refine ⟨fun h1 => ?_, fun h1 h2 => ?_, fun h1 h2 => ?_⟩ <;>
    simp [SharedLibrary.arch, List.find?, h1, *]

/-- C9, witness: flags `["libc6", "x86-64"]` classify as `x86_64`. -/
theorem c9_arch_classification_witness :
    SharedLibrary.arch ⟨"libGL.so.1", ["libc6", "x86-64"], "/usr/lib/libGL.so.1"⟩ = "x86_64" :=
  (c9_arch_classification_total "libGL.so.1" ["libc6", "x86-64"] "/usr/lib/libGL.so.1").1
    (by decide)

/-- C10: a requirement name outside the six keys of the static library table
hits a `KeyError` (modelled by `none`) in `get_missing_requirement_libs`, and
hence also in `is_feature_supported` for any such name other than `"ACO"`. -/
theorem c10_unknown_requirement_keyerror (s : LinuxSystem) (req : String)
    (h : req ∉ ["OPENGL", "VULKAN", "WINE", "RADEON", "GAMEMODE", "GNUTLS"]) :
    getMissingRequirementLibs s req = none ∧
      (req ≠ "ACO" → isFeatureSupported s req = none) := by
  simp only [List.mem_cons, List.not_mem_nil, or_false, not_or] at h
  obtain ⟨h1, h2, h3, h4, h5, h6⟩ := h
  have htab : SYSTEM_LIBRARIES req = none := by
    simp [SYSTEM_LIBRARIES, h1, h2, h3, h4, h5, h6]
  refine ⟨by simp [getMissingRequirementLibs, htab], fun haco => ?_⟩
  simp [isFeatureSupported, haco, getMissingRequirementLibs, htab]

/-- C10, witness: the requirement name `"FUSE"` is not a table key, so both
queries surface the `KeyError`. -/
theorem c10_unknown_requirement_witness :
    getMissingRequirementLibs exEmptyX64 "FUSE" = none ∧
      isFeatureSupported exEmptyX64 "FUSE" = none :=
  ⟨(c10_unknown_requirement_keyerror exEmptyX64 "FUSE" (by decide)).1,
   (c10_unknown_requirement_keyerror exEmptyX64 "FUSE" (by decide)).2 (by decide)⟩

end Lutris

namespace Lutris

theorem zip_self_map {α β : Type} (f : α → β) :
    ∀ l : List α, l.zip (l.map f) = l.map (fun a => (a, f a))
  | [] => rfl
  | a :: l => by simp [zip_self_map f l]

/-- C7: for every requirement of the requirement set, the missing-library
report pairs the runtime architectures, in list order, with exactly the
statically declared libraries having no inventory record of that name tagged
with that architecture (static set minus present set); recomputation from the
same frozen snapshot is the identical value (the embedding is pure, so the
last conjunct is definitional). -/
theorem c7_missing_is_setdiff_per_arch (s : LinuxSystem) (req : String)
    (libs : List String) (hreq : req ∈ requirements s)
    (htab : SYSTEM_LIBRARIES req = some libs) :
    ∃ ls, getMissingRequirementLibs s req = some ls ∧
      ls.length = (runtimeArchitectures s).length ∧
      (∀ p ∈ (runtimeArchitectures s).zip ls, ∀ l : String,
        l ∈ p.2 ↔ (l ∈ libs ∧
          ¬ ∃ r, r ∈ parsedLibs s ∧ r.name = l ∧ SharedLibrary.arch r = p.1)) ∧
      getMissingRequirementLibs s req = getMissingRequirementLibs s req := by
  refine ⟨(runtimeArchitectures s).map (fun arch =>
      (dedupFO libs).filter (fun l => decide (l ∉ libCache s arch req))), ?_, by simp, ?_, rfl⟩
  · simp [getMissingRequirementLibs, htab]
  · rw [zip_self_map]
    intro p hp l
    obtain ⟨arch, _, rfl⟩ := List.mem_map.mp hp
    simp only [List.mem_filter, mem_dedupFO, decide_eq_true_eq]
    rw [mem_libCache s arch req l libs hreq htab]
    exact ⟨fun h => ⟨h.1, fun he => h.2 ⟨h.1, he⟩⟩, fun h => ⟨h.1, fun hc => h.2 hc.2⟩⟩

/-- C7, witness: the characterization applied to `"VULKAN"` on the synthetic
snapshot. -/
theorem c7_missing_is_setdiff_witness :
    ∃ ls, getMissingRequirementLibs exSynthetic "VULKAN" = some ls ∧
      ls.length = (runtimeArchitectures exSynthetic).length ∧
      (∀ p ∈ (runtimeArchitectures exSynthetic).zip ls, ∀ l : String,
        l ∈ p.2 ↔ (l ∈ ["libvulkan.so.1"] ∧
          ¬ ∃ r, r ∈ parsedLibs exSynthetic ∧ r.name = l ∧ SharedLibrary.arch r = p.1)) ∧
      getMissingRequirementLibs exSynthetic "VULKAN" =
        getMissingRequirementLibs exSynthetic "VULKAN" :=
  c7_missing_is_setdiff_per_arch exSynthetic "VULKAN" ["libvulkan.so.1"]
    (by decide) (by decide)

end Lutris
namespace Lutris

theorem leadsWith_iff (sep : List Char) : ∀ cs, leadsWith sep cs = true ↔ ∃ t, cs = sep ++ t := by
  induction sep with
  | nil => intro cs; simp [leadsWith]
  | cons s ss ih =>
    intro cs
    cases cs with
    | nil => simp [leadsWith]
    | cons c rest =>
      simp only [leadsWith, Bool.and_eq_true, decide_eq_true_eq, ih rest, List.cons_append]
      constructor
      · rintro ⟨rfl, t, rfl⟩; exact ⟨t, rfl⟩
      · rintro ⟨t, h⟩
        injection h with h1 h2
        exact ⟨h1.symm, t, h2⟩

theorem mem_map_shift {c : Char} {l : List (List Char × List Char)} (a b : List Char) :
    ((a, b) ∈ l.map (fun p => (c :: p.1, p.2))) ↔ ∃ a', a = c :: a' ∧ (a', b) ∈ l := by
  rw [List.mem_map]
  constructor
  · rintro ⟨⟨p1, p2⟩, hp, hpe⟩
    simp only [Prod.mk.injEq] at hpe
    exact ⟨p1, hpe.1.symm, hpe.2 ▸ hp⟩
  · rintro ⟨a', rfl, hp⟩
    exact ⟨(a', b), hp, rfl⟩

theorem mem_splitsOn (sep : List Char) :
    ∀ cs a b, (a, b) ∈ splitsOn sep cs ↔ cs = a ++ (sep ++ b) := by
  intro cs
  induction cs with
  | nil =>
    intro a b
    simp only [splitsOn]
    by_cases hl : leadsWith sep [] = true
    · rw [if_pos hl]
      obtain ⟨t, ht⟩ := (leadsWith_iff sep []).mp hl
      have hsep : sep = [] := by
        cases sep with
        | nil => rfl
        | cons s ss => exact absurd ht (by simp)
      subst hsep
      rw [List.mem_singleton]
      simp only [Prod.mk.injEq, List.nil_append]
      constructor
      · rintro ⟨rfl, rfl⟩; rfl
      · intro h
        cases a with
        | nil => exact ⟨rfl, by simpa using h.symm⟩
        | cons a0 a' => exact absurd h (by simp)
    · rw [if_neg hl]
      constructor
      · intro h; exact absurd h (List.not_mem_nil _)
      · intro h
        exfalso
        cases a with
        | nil =>
          rw [List.nil_append] at h
          exact hl ((leadsWith_iff sep []).mpr ⟨b, h⟩)
        | cons a0 a' => simp at h
  | cons c rest ih =>
    intro a b
    simp only [splitsOn]
    rw [List.mem_append, mem_map_shift]
    by_cases hl : leadsWith sep (c :: rest) = true
    · rw [if_pos hl]
      obtain ⟨t, ht⟩ := (leadsWith_iff sep (c :: rest)).mp hl
      rw [List.mem_singleton]
      simp only [Prod.mk.injEq]
      constructor
      · rintro (⟨rfl, rfl⟩ | ⟨a', rfl, ha'⟩)
        · rw [List.nil_append, ht, List.drop_left]
        · rw [(ih a' b).mp ha', List.cons_append]
      · intro h
        cases a with
        | nil =>
          left
          rw [List.nil_append] at h
          have htb : t = b := List.append_cancel_left (ht.symm.trans h)
          refine ⟨rfl, ?_⟩
          rw [ht, List.drop_left]
          exact htb.symm
        | cons a0 a' =>
          right
          rw [List.cons_append] at h
          injection h with h1 h2
          subst h1
          exact ⟨a', rfl, (ih a' b).mpr h2⟩
    · rw [if_neg hl]
      simp only [List.not_mem_nil, false_or]
      constructor
      · rintro ⟨a', rfl, ha'⟩
        rw [(ih a' b).mp ha', List.cons_append]
      · intro h
        cases a with
        | nil =>
          exfalso
          rw [List.nil_append] at h
          exact hl ((leadsWith_iff sep (c :: rest)).mpr ⟨b, h⟩)
        | cons a0 a' =>
          rw [List.cons_append] at h
          injection h with h1 h2
          subst h1
          exact ⟨a', rfl, (ih a' b).mpr h2⟩

theorem containsSeq_iff (sep : List Char) :
    ∀ cs, containsSeq sep cs = true ↔ ∃ x y, cs = x ++ (sep ++ y) := by
  intro cs
  induction cs with
  | nil =>
    simp only [containsSeq, List.isEmpty_iff]
    constructor
    · rintro rfl; exact ⟨[], [], rfl⟩
    · rintro ⟨x, y, hxy⟩
      rcases List.append_eq_nil.mp hxy.symm with ⟨rfl, h2⟩
      rcases List.append_eq_nil.mp h2 with ⟨rfl, rfl⟩
      rfl
  | cons c rest ih =>
    simp only [containsSeq, Bool.or_eq_true, leadsWith_iff, ih]
    constructor
    · rintro (⟨t, ht⟩ | ⟨x, y, hxy⟩)
      · exact ⟨[], t, by rw [List.nil_append]; exact ht⟩
      · exact ⟨c :: x, y, by rw [List.cons_append, hxy]⟩
    · rintro ⟨x, y, hxy⟩
      cases x with
      | nil =>
        rw [List.nil_append] at hxy
        exact Or.inl ⟨y, hxy⟩
      | cons x0 x' =>
        rw [List.cons_append] at hxy
        injection hxy with h1 h2
        exact Or.inr ⟨x', y, h2⟩

theorem uniqueCharSplit (ch : Char) :
    ∀ (u x y v : List Char), ch ∉ u → ch ∉ v →
      x ++ ch :: y = u ++ ch :: v → x = u ∧ y = v := by
  intro u
  induction u with
  | nil =>
    intro x y v hu hv heq
    rw [List.nil_append] at heq
    cases x with
    | nil =>
      rw [List.nil_append] at heq
      injection heq with _ h2
      exact ⟨rfl, h2⟩
    | cons x0 x' =>
      rw [List.cons_append] at heq
      injection heq with h1 h2
      exact absurd (h2 ▸ (List.mem_append_right x' (List.mem_cons_self ch y))) hv
  | cons u0 u' ih =>
    intro x y v hu hv heq
    rw [List.cons_append] at heq
    cases x with
    | nil =>
      rw [List.nil_append] at heq
      injection heq with h1 h2
      exact absurd (by rw [h1]; exact List.mem_cons_self u0 u') hu
    | cons x0 x' =>
      rw [List.cons_append] at heq
      injection heq with h1 h2
      obtain ⟨h3, h4⟩ := ih x' y v (fun hin => hu (List.mem_cons_of_mem _ hin)) hv h2
      rw [h1, h3]
      exact ⟨rfl, h4⟩

theorem lastMem {α : Type} : ∀ {l : List α} {a : α}, l.getLast? = some a → a ∈ l := by
  intro l
  induction l with
  | nil => intro a h; exact absurd h (by simp)
  | cons x xs ih =>
    intro a h
    cases xs with
    | nil =>
      rw [List.getLast?_singleton] at h
      rw [Option.some.injEq] at h
      rw [h]
      exact List.mem_singleton_self a
    | cons y ys =>
      rw [List.getLast?_cons_cons] at h
      exact List.mem_cons_of_mem _ (ih h)

theorem lastOfAllEq {α : Type} (v : α) :
    ∀ (l : List α), l ≠ [] → (∀ x ∈ l, x = v) → l.getLast? = some v := by
  intro l
  induction l with
  | nil => intro h; exact absurd rfl h
  | cons x xs ih =>
    intro _ hall
    cases xs with
    | nil =>
      rw [List.getLast?_singleton, hall x (List.mem_cons_self x [])]
    | cons y ys =>
      rw [List.getLast?_cons_cons]
      exact ih (by simp) (fun z hz => hall z (List.mem_cons_of_mem _ hz))

end Lutris

namespace Lutris

theorem innerSplit (f p : List Char) (hf : ')' ∉ f) (hp : ')' ∉ p) :
    (splitsOn [')', ' ', '=', '>', ' '] (f ++ ([')', ' ', '=', '>', ' '] ++ p))).getLast?
      = some (f, p) := by
  apply lastOfAllEq
  · intro hnil
    have hmem : (f, p) ∈ splitsOn [')',' ','=','>',' '] (f ++ ([')',' ','=','>',' '] ++ p)) :=
      (mem_splitsOn _ _ f p).mpr rfl
    rw [hnil] at hmem
    exact List.not_mem_nil _ hmem
  · rintro ⟨q1, q2⟩ hq
    have heq := (mem_splitsOn _ _ q1 q2).mp hq
    have hv : (')' : Char) ∉ [' ', '=', '>', ' '] ++ p := by
      intro hmem
      rcases List.mem_append.mp hmem with h | h
      · simp at h
      · exact hp h
    obtain ⟨h1, h2⟩ :=
      uniqueCharSplit ')' f q1 ([' ', '=', '>', ' '] ++ q2) ([' ', '=', '>', ' '] ++ p)
        hf hv heq.symm
    have h3 : q2 = p := List.append_cancel_left h2
    rw [h1, h3]

theorem outerSplit (n f p : List Char) (hn : '(' ∉ n) (hf1 : '(' ∉ f) (hp1 : '(' ∉ p) :
    ((splitsOn [' ', '('] (n ++ ([' ', '('] ++ (f ++ ([')',' ','=','>',' '] ++ p))))).filter
        (fun q => containsSeq [')',' ','=','>',' '] q.2)).getLast?
      = some (n, f ++ ([')',' ','=','>',' '] ++ p)) := by
  apply lastOfAllEq
  · intro hnil
    have hmem : (n, f ++ ([')',' ','=','>',' '] ++ p)) ∈
        (splitsOn [' ', '('] (n ++ ([' ', '('] ++ (f ++ ([')',' ','=','>',' '] ++ p))))).filter
          (fun q => containsSeq [')',' ','=','>',' '] q.2) := by
      rw [List.mem_filter]
      exact ⟨(mem_splitsOn _ _ _ _).mpr rfl, (containsSeq_iff _ _).mpr ⟨f, p, rfl⟩⟩
    rw [hnil] at hmem
    exact List.not_mem_nil _ hmem
  · rintro ⟨q1, q2⟩ hq
    rw [List.mem_filter] at hq
    obtain ⟨hq1, -⟩ := hq
    have heq := (mem_splitsOn _ _ q1 q2).mp hq1
    have heq' : (q1 ++ [' ']) ++ '(' :: q2
        = (n ++ [' ']) ++ '(' :: (f ++ ([')',' ','=','>',' '] ++ p)) := by
      rw [List.append_assoc, List.append_assoc]
      exact heq.symm
    have hu : ('(' : Char) ∉ n ++ [' '] := by
      intro hmem
      rcases List.mem_append.mp hmem with h | h
      · exact hn h
      · simp at h
    have hv : ('(' : Char) ∉ f ++ ([')',' ','=','>',' '] ++ p) := by
      intro hmem
      rcases List.mem_append.mp hmem with h | h
      · exact hf1 h
      · rcases List.mem_append.mp h with h2 | h2
        · simp at h2
        · exact hp1 h2
    obtain ⟨h1, h2⟩ :=
      uniqueCharSplit '(' (n ++ [' ']) (q1 ++ [' ']) q2
        (f ++ ([')',' ','=','>',' '] ++ p)) hu hv heq'
    have h3 : q1 = n := List.append_cancel_right h1
    rw [h3, h2]

theorem newFromLdconfig_eq_of (line : String) (a r b c : List Char)
    (h1 : ((splitsOn " (".toList line.toList).filter
        (fun q => containsSeq ") => ".toList q.2)).getLast? = some (a, r))
    (h2 : (splitsOn ") => ".toList r).getLast? = some (b, c)) :
    newFromLdconfig line
      = some (SharedLibrary.ofParts (String.mk a) (String.mk b) (String.mk c)) := by
  simp only [newFromLdconfig, h1, h2]

theorem newFromLdconfig_eq_none_of (line : String)
    (h1 : ((splitsOn " (".toList line.toList).filter
        (fun q => containsSeq ") => ".toList q.2)).getLast? = none) :
    newFromLdconfig line = none := by
  simp only [newFromLdconfig, h1]

end Lutris

namespace Lutris

/-- C5: (1) every cache line assembled as `name ++ " (" ++ flagsStr ++ ") => "
++ path` — with the separator characters `(` and `)` not recurring in the
parts, which is what makes the decomposition well defined — parses to a record
whose `name` and `path` are exactly those parts and whose `flags` are the
comma-split, whitespace-stripped tokens of `flagsStr`; (2) a line missing a
parenthesis or the `=>` separator makes `new_from_ldconfig` fail with
`ValueError` (modelled by `none`), confined to that line. -/
theorem c5_parser_roundtrip_and_rejection :
    (∀ name flagsStr path : String,
      '(' ∉ name.toList → '(' ∉ flagsStr.toList → ')' ∉ flagsStr.toList →
      '(' ∉ path.toList → ')' ∉ path.toList →
      newFromLdconfig (name ++ " (" ++ flagsStr ++ ") => " ++ path)
        = some ⟨name, (splitAll ',' flagsStr.toList).map (fun t => String.mk (stripChars t)),
            path⟩) ∧
    (∀ line : String,
      ('(' ∉ line.toList ∨ ')' ∉ line.toList ∨ containsSeq "=>".toList line.toList = false) →
      newFromLdconfig line = none) := by
  constructor
  · intro name flagsStr path hn hf1 hf2 hp1 hp2
    have hL : (name ++ " (" ++ flagsStr ++ ") => " ++ path).toList
        = name.toList ++
            ([' ', '('] ++ (flagsStr.toList ++ ([')', ' ', '=', '>', ' '] ++ path.toList))) := by
      simp only [String.toList, String.data_append, List.append_assoc]
    have h1 : ((splitsOn " (".toList
          (name ++ " (" ++ flagsStr ++ ") => " ++ path).toList).filter
          (fun q => containsSeq ") => ".toList q.2)).getLast?
        = some (name.toList, flagsStr.toList ++ ([')', ' ', '=', '>', ' '] ++ path.toList)) := by
      rw [hL, show " (".toList = [' ', '('] from rfl,
          show ") => ".toList = [')', ' ', '=', '>', ' '] from rfl]
      exact outerSplit name.toList flagsStr.toList path.toList hn hf1 hp1
    have h2 : (splitsOn ") => ".toList
          (flagsStr.toList ++ ([')', ' ', '=', '>', ' '] ++ path.toList))).getLast?
        = some (flagsStr.toList, path.toList) := by
      rw [show ") => ".toList = [')', ' ', '=', '>', ' '] from rfl]
      exact innerSplit flagsStr.toList path.toList hf2 hp2
    exact newFromLdconfig_eq_of _ _ _ _ _ h1 h2
  · intro line hbad
    cases hq : ((splitsOn " (".toList line.toList).filter
        (fun q => containsSeq ") => ".toList q.2)).getLast? with
    | none => exact newFromLdconfig_eq_none_of line hq
    | some q =>
      exfalso
      obtain ⟨q1, q2⟩ := q
      have hmem := lastMem hq
      rw [List.mem_filter] at hmem
      obtain ⟨hm1, hm2⟩ := hmem
      have heq := (mem_splitsOn _ _ q1 q2).mp hm1
      obtain ⟨x, y, hxy⟩ := (containsSeq_iff _ _).mp hm2
      rw [show " (".toList = [' ', '('] from rfl] at heq
      rw [show ") => ".toList = [')', ' ', '=', '>', ' '] from rfl] at hxy
      have hxy' : q2 = x ++ ([')', ' ', '=', '>', ' '] ++ y) := hxy
      rcases hbad with hb | hb | hb
      · exact hb (by rw [heq]; simp)
      · exact hb (by rw [heq, hxy']; simp)
      · have hc : containsSeq "=>".toList line.toList = true := by
          rw [show "=>".toList = ['=', '>'] from rfl]
          apply (containsSeq_iff _ _).mpr
          refine ⟨q1 ++ ([' '] ++ ('(' :: (x ++ [')', ' ']))), ' ' :: y, ?_⟩
          rw [heq, hxy']
          simp [List.append_assoc]
        rw [hb] at hc
        exact Bool.noConfusion hc

/-- C5, witness: a concrete well-formed line round-trips into its parts, and a
concrete line with no parenthesis is rejected. -/
theorem c5_parser_witness :
    newFromLdconfig ("libvulkan.so.1" ++ " (" ++ "libc6,x86-64" ++ ") => "
        ++ "/usr/lib/libvulkan.so.1")
      = some ⟨"libvulkan.so.1",
          (splitAll ',' "libc6,x86-64".toList).map (fun t => String.mk (stripChars t)),
          "/usr/lib/libvulkan.so.1"⟩ ∧
    newFromLdconfig "this line is malformed" = none :=
  ⟨c5_parser_roundtrip_and_rejection.1 "libvulkan.so.1" "libc6,x86-64" "/usr/lib/libvulkan.so.1"
      (by decide) (by decide) (by decide) (by decide) (by decide),
   c5_parser_roundtrip_and_rejection.2 "this line is malformed" (by decide)⟩

end Lutris
